/-
  Verification of the task-server core of rpa-worker-selenium
  (task_server.py and script_downloader.py) against its specification.

  The Python source is shallowly embedded: pure helpers become Lean
  functions on `String` / `List Char`, machine integers become `Nat`
  with explicit `% 2^32` where overflow matters, Python exceptions
  become `Except String`, and the effectful handler becomes an explicit
  state-passing function over the `task_executing` flag.
-/
import Mathlib

namespace RpaWorker

instance {ε α : Type} [DecidableEq ε] [DecidableEq α] : DecidableEq (Except ε α) := fun a b =>
  match a, b with
  | .ok x, .ok y => if h : x = y then .isTrue (by rw [h]) else .isFalse (by simp [h])
  | .error x, .error y => if h : x = y then .isTrue (by rw [h]) else .isFalse (by simp [h])
  | .ok _, .error _ => .isFalse (by simp)
  | .error _, .ok _ => .isFalse (by simp)

/-! ## Python-style string primitives (on `List Char`) -/

/-- Python `str.split('/')`: splits on every `'/'`, keeping empty pieces
(`"".split("/") == [""]`, `"a//b".split("/") == ["a","","b"]`). -/
def pySplitSlash : List Char → List (List Char)
  | [] => [[]]
  | c :: rest =>
    if c = '/' then [] :: pySplitSlash rest
    else
      match pySplitSlash rest with
      | s :: ss => (c :: s) :: ss
      | [] => [[c]]

/-- ASCII lower-casing of a character, as used for the
case-insensitive `.py` suffix test (`seg.lower().endswith(".py")`). -/
def pyLowerChar (c : Char) : Char :=
  if 'A' ≤ c ∧ c ≤ 'Z' then Char.ofNat (c.toNat + 32) else c

def pyLower (l : List Char) : List Char := l.map pyLowerChar

/-- Python `str.endswith(suffix)`. -/
def pyEndsWith (l suffix : List Char) : Bool :=
  l.reverse.take suffix.length = suffix.reverse

/-- Python `str.startswith(prefix)`. -/
def pyStartsWith : List Char → List Char → Bool
  | _, [] => true
  | [], _ :: _ => false
  | c :: cs, p :: ps => c = p && pyStartsWith cs ps

/-- Python `str.strip()` whitespace set (the ASCII part relevant here). -/
def pyIsSpace (c : Char) : Bool :=
  c = ' ' ∨ c = '\t' ∨ c = '\n' ∨ c = '\r' ∨ c = '\x0b' ∨ c = '\x0c'

/-- Python `str.strip()`: drop leading and trailing whitespace. -/
def pyStrip (l : List Char) : List Char :=
  ((l.dropWhile pyIsSpace).reverse.dropWhile pyIsSpace).reverse

/-! ## `script_downloader._sanitize` -/

/-- The characters of the regex class `[\\/*?:"<>|]` in
`re.sub(r'[\\/*?:"<>|]', "_", name)`. -/
def invalidFilenameChar (c : Char) : Bool :=
  c = '\\' ∨ c = '/' ∨ c = '*' ∨ c = '?' ∨ c = ':' ∨ c = '"' ∨ c = '<' ∨ c = '>' ∨ c = '|'

def sanitizeList (l : List Char) : List Char :=
  pyStrip (l.map fun c => if invalidFilenameChar c then '_' else c)

/-- The function `_sanitize` from script_downloader.py: replace invalid filename
characters by `'_'` and strip surrounding whitespace. -/
def sanitize (s : String) : String := ⟨sanitizeList s.data⟩

/-! ## `pathlib.Path(seg).name` for a slash-free segment -/

/-- Model of `pathlib.PurePosixPath(seg).name` when `seg` contains no `'/'`:
the empty string and `"."` have no final component, any other
segment is its own name. -/
def pathNameList (seg : List Char) : List Char :=
  if seg = [] ∨ seg = ['.'] then [] else seg

/-! ## Percent-decoding: `urllib.parse.unquote` -/

def hexDigitVal (c : Char) : Option Nat :=
  if '0' ≤ c ∧ c ≤ '9' then some (c.toNat - '0'.toNat)
  else if 'a' ≤ c ∧ c ≤ 'f' then some (c.toNat - 'a'.toNat + 10)
  else if 'A' ≤ c ∧ c ≤ 'F' then some (c.toNat - 'A'.toNat + 10)
  else none

/-- A UTF-8 continuation byte. -/
def utf8Cont (b : Nat) : Bool := 0x80 ≤ b ∧ b < 0xC0

/-- Allowed second byte after a three-byte lead (excludes overlong
encodings after `0xE0` and surrogates after `0xED`). -/
def utf8Valid2of3 (b b2 : Nat) : Bool :=
  if b = 0xE0 then 0xA0 ≤ b2 ∧ b2 < 0xC0
  else if b = 0xED then 0x80 ≤ b2 ∧ b2 < 0xA0
  else utf8Cont b2

/-- Allowed second byte after a four-byte lead (excludes overlong
encodings after `0xF0` and values above U+10FFFF after `0xF4`). -/
def utf8Valid2of4 (b b2 : Nat) : Bool :=
  if b = 0xF0 then 0x90 ≤ b2 ∧ b2 < 0xC0
  else if b = 0xF4 then 0x80 ≤ b2 ∧ b2 < 0x90
  else utf8Cont b2

/-- UTF-8 decoding with `errors='replace'`: malformed input is replaced
by U+FFFD, consuming the maximal subpart of a valid sequence. -/
def utf8Dec : List Nat → List Char
  | [] => []
  | b :: rest =>
    if b < 0x80 then Char.ofNat b :: utf8Dec rest
    else if b < 0xC2 then '�' :: utf8Dec rest
    else if b < 0xE0 then
      match rest with
      | b2 :: rest2 =>
        if utf8Cont b2 then Char.ofNat ((b - 0xC0) * 64 + (b2 - 0x80)) :: utf8Dec rest2
        else '�' :: utf8Dec (b2 :: rest2)
      | [] => ['�']
    else if b < 0xF0 then
      match rest with
      | b2 :: rest2 =>
        if utf8Valid2of3 b b2 then
          match rest2 with
          | b3 :: rest3 =>
            if utf8Cont b3 then
              Char.ofNat ((b - 0xE0) * 4096 + (b2 - 0x80) * 64 + (b3 - 0x80)) :: utf8Dec rest3
            else '�' :: utf8Dec (b3 :: rest3)
          | [] => ['�']
        else '�' :: utf8Dec (b2 :: rest2)
      | [] => ['�']
    else if b < 0xF5 then
      match rest with
      | b2 :: rest2 =>
        if utf8Valid2of4 b b2 then
          match rest2 with
          | b3 :: rest3 =>
            if utf8Cont b3 then
              match rest3 with
              | b4 :: rest4 =>
                if utf8Cont b4 then
                  Char.ofNat ((b - 0xF0) * 262144 + (b2 - 0x80) * 4096 +
                    (b3 - 0x80) * 64 + (b4 - 0x80)) :: utf8Dec rest4
                else '�' :: utf8Dec (b4 :: rest4)
              | [] => ['�']
            else '�' :: utf8Dec (b3 :: rest3)
          | [] => ['�']
        else '�' :: utf8Dec (b2 :: rest2)
      | [] => ['�']
    else '�' :: utf8Dec rest

/-- First pass of `unquote`: each `%XX` with two hex digits becomes an
escape byte (`Sum.inr`), every other character is literal (`Sum.inl`).
A `%` not followed by two hex digits stays literal. -/
def unquoteTokens : List Char → List (Char ⊕ Nat)
  | '%' :: h1 :: h2 :: rest =>
    match hexDigitVal h1, hexDigitVal h2 with
    | some v1, some v2 => Sum.inr (v1 * 16 + v2) :: unquoteTokens rest
    | _, _ => Sum.inl '%' :: unquoteTokens (h1 :: h2 :: rest)
  | c :: rest => Sum.inl c :: unquoteTokens rest
  | [] => []

/-- Second pass of `unquote`: each maximal run of escape bytes is decoded
as UTF-8 with replacement, literal characters are copied through. -/
def decodeTokens (l : List (Char ⊕ Nat)) : List Char :=
  let p := l.foldr
    (fun t (acc : List Nat × List Char) =>
      match t with
      | Sum.inr b => (b :: acc.1, acc.2)
      | Sum.inl c => ([], c :: (utf8Dec acc.1 ++ acc.2)))
    ([], [])
  utf8Dec p.1 ++ p.2

def unquoteList (l : List Char) : List Char := decodeTokens (unquoteTokens l)

/-- Model of `urllib.parse.unquote`. -/
def unquote (s : String) : String := ⟨unquoteList s.data⟩

/-! ## `urllib.parse.urlparse` (the split into scheme/netloc/path/query/fragment) -/

structure UrlParts where
  scheme : List Char
  netloc : List Char
  path : List Char
  query : List Char
  fragment : List Char
  deriving Repr, DecidableEq

/-- Characters allowed in a scheme after the first letter
(`scheme_chars` in urllib). -/
def schemeChar (c : Char) : Bool :=
  ('a' ≤ c ∧ c ≤ 'z') ∨ ('A' ≤ c ∧ c ≤ 'Z') ∨ ('0' ≤ c ∧ c ≤ '9') ∨ c = '+' ∨ c = '-' ∨ c = '.'

/-- ASCII letter test, matching `url[0].isascii() and url[0].isalpha()`. -/
def asciiAlpha (c : Char) : Bool := ('a' ≤ c ∧ c ≤ 'z') ∨ ('A' ≤ c ∧ c ≤ 'Z')

/-- Index of the first occurrence of `c`, or `none` (Python `str.find`). -/
def findChar (l : List Char) (c : Char) : Option Nat :=
  l.indexOf? c

/-- Split at the first occurrence of `c` (Python `str.split(c, 1)` when
`c` occurs); `none` when `c` does not occur. -/
def splitOnceAt (l : List Char) (c : Char) : Option (List Char × List Char) :=
  match l.indexOf? c with
  | none => none
  | some i => some (l.take i, l.drop (i + 1))

/-- Model of `_splitnetloc`: the netloc extends from position 2 to the first
`'/'`, `'?'` or `'#'`. Returns `(netloc, rest)`. -/
def splitNetloc (l : List Char) : List Char × List Char :=
  (l.takeWhile fun c => ¬(c = '/' ∨ c = '?' ∨ c = '#'),
   l.dropWhile fun c => ¬(c = '/' ∨ c = '?' ∨ c = '#'))

/-- Model of `urllib.parse.urlsplit` as used by `urlparse`: strips the unsafe
bytes `\t\r\n`, splits off a valid scheme, then netloc after `"//"`,
then fragment after `'#'`, then query after `'?'`; raises `ValueError`
on a netloc with unbalanced square brackets. -/
def urlsplit (url : List Char) : Except String UrlParts := do
  let url := url.filter fun c => ¬(c = '\t' ∨ c = '\r' ∨ c = '\n')
  let (scheme, rest) :=
    match splitOnceAt url ':' with
    | some (before, after) =>
      if before ≠ [] ∧ asciiAlpha (before.headD ' ') ∧ before.all schemeChar then
        (pyLower before, after)
      else ([], url)
    | none => ([], url)
  let (netloc, rest) ←
    if pyStartsWith rest ['/', '/'] then
      let (n, r) := splitNetloc (rest.drop 2)
      if ('[' ∈ n ∧ ']' ∉ n) ∨ (']' ∈ n ∧ '[' ∉ n) then
        .error "ValueError: Invalid IPv6 URL"
      else pure (n, r)
    else pure ([], rest)
  let (rest, fragment) :=
    match splitOnceAt rest '#' with
    | some (before, after) => (before, after)
    | none => (rest, [])
  let (path, query) :=
    match splitOnceAt rest '?' with
    | some (before, after) => (before, after)
    | none => (rest, [])
  return ⟨scheme, netloc, path, query, fragment⟩

/-! ## MD5 (`hashlib.md5(url.encode()).hexdigest()`) -/

/-- UTF-8 encoding of one character (`str.encode()`). -/
def utf8EncodeChar (c : Char) : List Nat :=
  let n := c.toNat
  if n < 0x80 then [n]
  else if n < 0x800 then [0xC0 + n / 64, 0x80 + n % 64]
  else if n < 0x10000 then [0xE0 + n / 4096, 0x80 + n / 64 % 64, 0x80 + n % 64]
  else [0xF0 + n / 262144, 0x80 + n / 4096 % 64, 0x80 + n / 64 % 64, 0x80 + n % 64]

def utf8Encode (l : List Char) : List Nat := l.flatMap utf8EncodeChar

/-- The 64 MD5 sine-table constants `K[i]`. -/
def md5K : List Nat :=
  [0xd76aa478, 0xe8c7b756, 0x242070db, 0xc1bdceee,
   0xf57c0faf, 0x4787c62a, 0xa8304613, 0xfd469501,
   0x698098d8, 0x8b44f7af, 0xffff5bb1, 0x895cd7be,
   0x6b901122, 0xfd987193, 0xa679438e, 0x49b40821,
   0xf61e2562, 0xc040b340, 0x265e5a51, 0xe9b6c7aa,
   0xd62f105d, 0x02441453, 0xd8a1e681, 0xe7d3fbc8,
   0x21e1cde6, 0xc33707d6, 0xf4d50d87, 0x455a14ed,
   0xa9e3e905, 0xfcefa3f8, 0x676f02d9, 0x8d2a4c8a,
   0xfffa3942, 0x8771f681, 0x6d9d6122, 0xfde5380c,
   0xa4beea44, 0x4bdecfa9, 0xf6bb4b60, 0xbebfbc70,
   0x289b7ec6, 0xeaa127fa, 0xd4ef3085, 0x04881d05,
   0xd9d4d039, 0xe6db99e5, 0x1fa27cf8, 0xc4ac5665,
   0xf4292244, 0x432aff97, 0xab9423a7, 0xfc93a039,
   0x655b59c3, 0x8f0ccc92, 0xffeff47d, 0x85845dd1,
   0x6fa87e4f, 0xfe2ce6e0, 0xa3014314, 0x4e0811a1,
   0xf7537e82, 0xbd3af235, 0x2ad7d2bb, 0xeb86d391]

/-- The 64 MD5 per-round left-rotation amounts `s[i]`. -/
def md5S : List Nat :=
  [7, 12, 17, 22, 7, 12, 17, 22, 7, 12, 17, 22, 7, 12, 17, 22,
   5, 9, 14, 20, 5, 9, 14, 20, 5, 9, 14, 20, 5, 9, 14, 20,
   4, 11, 16, 23, 4, 11, 16, 23, 4, 11, 16, 23, 4, 11, 16, 23,
   6, 10, 15, 21, 6, 10, 15, 21, 6, 10, 15, 21, 6, 10, 15, 21]

def rotl32 (x n : Nat) : Nat :=
  ((x <<< n) ||| (x >>> (32 - n))) % 4294967296

/-- Round function and message-word index of MD5 step `i`. -/
def md5FG (i b c d : Nat) : Nat × Nat :=
  if i < 16 then ((b &&& c) ||| ((b ^^^ 0xffffffff) &&& d), i)
  else if i < 32 then ((d &&& b) ||| ((d ^^^ 0xffffffff) &&& c), (5 * i + 1) % 16)
  else if i < 48 then (b ^^^ c ^^^ d, (3 * i + 5) % 16)
  else (c ^^^ (b ||| (d ^^^ 0xffffffff)), (7 * i) % 16)

def md5Step (M : List Nat) (st : Nat × Nat × Nat × Nat) (i : Nat) : Nat × Nat × Nat × Nat :=
  let (a, b, c, d) := st
  let (f, g) := md5FG i b c d
  let tmp := (a + f + md5K.getD i 0 + M.getD g 0) % 4294967296
  (d, (b + rotl32 tmp (md5S.getD i 0)) % 4294967296, b, c)

/-- Little-endian byte decomposition. -/
def leBytes (k n : Nat) : List Nat :=
  match k with
  | 0 => []
  | k + 1 => n % 256 :: leBytes k (n / 256)

/-- The 16 little-endian 32-bit words of one 64-byte block. -/
def md5Words (block : List Nat) : List Nat :=
  (List.range 16).map fun j =>
    block.getD (4 * j) 0 + 256 * block.getD (4 * j + 1) 0 +
      65536 * block.getD (4 * j + 2) 0 + 16777216 * block.getD (4 * j + 3) 0

def md5ProcessBlock (h : Nat × Nat × Nat × Nat) (block : List Nat) : Nat × Nat × Nat × Nat :=
  let M := md5Words block
  let (a, b, c, d) := (List.range 64).foldl (md5Step M) h
  ((h.1 + a) % 4294967296, (h.2.1 + b) % 4294967296,
   (h.2.2.1 + c) % 4294967296, (h.2.2.2 + d) % 4294967296)

def md5Blocks (h : Nat × Nat × Nat × Nat) (bytes : List Nat) : Nat × Nat × Nat × Nat :=
  match hlen : bytes.length with
  | 0 => h
  | _ + 1 =>
    have : bytes.length - 64 < bytes.length := by omega
    md5Blocks (md5ProcessBlock h (bytes.take 64)) (bytes.drop 64)
termination_by bytes.length

/-- MD5 padding: `0x80`, zeros to 56 mod 64, then the 64-bit
little-endian bit length. -/
def md5Pad (bytes : List Nat) : List Nat :=
  let len := bytes.length
  bytes ++ [0x80] ++ List.replicate ((119 - len % 64) % 64) 0 ++
    leBytes 8 (len * 8 % 18446744073709551616)

def hexChar (n : Nat) : Char :=
  if n < 10 then Char.ofNat ('0'.toNat + n) else Char.ofNat ('a'.toNat + n - 10)

/-- Lowercase hex of one byte, high nibble first. -/
def byteHex (b : Nat) : List Char := [hexChar (b / 16 % 16), hexChar (b % 16)]

/-- Model of `hashlib.md5(...).hexdigest()` over a byte list. -/
def md5HexBytes (bytes : List Nat) : List Char :=
  let st := md5Blocks (0x67452301, 0xefcdab89, 0x98badcfe, 0x10325476) (md5Pad bytes)
  ((leBytes 4 st.1 ++ leBytes 4 st.2.1 ++ leBytes 4 st.2.2.1 ++
    leBytes 4 st.2.2.2).map byteHex).flatten

/-- Model of `hashlib.md5(url.encode()).hexdigest()`. -/
def md5Hex (s : String) : String := ⟨md5HexBytes (utf8Encode s.data)⟩

/-- The schemes of `urllib.parse.uses_params`: for these, `urlparse`
splits `;params` off the path. -/
def usesParams (scheme : List Char) : Bool :=
  scheme ∈ (["".data, "ftp".data, "hdl".data, "prospero".data, "http".data,
    "imap".data, "https".data, "shttp".data, "rtsp".data, "rtspu".data,
    "sip".data, "sips".data, "mms".data, "sftp".data, "tel".data] :
    List (List Char))

/-- Model of `_splitparams` (path part only): when the path contains a
`'/'`, split at the first `';'` at or after the last `'/'` (no such
`';'` leaves the path unchanged); otherwise split at the first `';'`.
Only called with `';'` in the path, so the missing-`';'` fallbacks are
unreachable. -/
def splitParams (url : List Char) : List Char :=
  if '/' ∈ url then
    match url.reverse.indexOf? '/' with
    | none => url
    | some r =>
      let j := url.length - 1 - r
      match (url.drop j).indexOf? ';' with
      | none => url
      | some k => url.take (j + k)
  else
    match url.indexOf? ';' with
    | none => url
    | some k => url.take k

/-- The `.path` attribute of `urlparse(url)`: the `urlsplit` path, with
`;params` stripped when the scheme is in `uses_params` and the path
contains a `';'`. -/
def urlparsePath (parts : UrlParts) : List Char :=
  if usesParams parts.scheme ∧ ';' ∈ parts.path then splitParams parts.path
  else parts.path

/-! ## `script_downloader.get_filename_from_url` -/

/-- Does a path segment satisfy `seg.lower().endswith(".py")`? -/
def segIsPy (seg : List Char) : Bool :=
  pyEndsWith (pyLower seg) ['.', 'p', 'y']

/-- The non-empty segments of the (unquoted) URL path:
`[s for s in path.split("/") if s]`. -/
def pathSegments (path : List Char) : List (List Char) :=
  (pySplitSlash path).filter (· ≠ [])

/-- The function `get_filename_from_url` from script_downloader.py:
take the `urlparse(url).path` (with `;params` stripped for schemes in
`uses_params`), unquote it, and scan its segments from the right for
one ending (case-insensitively) in `.py`, returning its sanitized
`Path(...).name`; otherwise fall back to
`script_<first 16 hex chars of md5(url)>.py`. Propagates the
`ValueError` that `urlparse` raises on unbalanced brackets. -/
def get_filename_from_url (url : String) : Except String String := do
  let parsed ← urlsplit url.data
  let path := unquoteList (urlparsePath parsed)
  let segments := pathSegments path
  match segments.reverse.find? segIsPy with
  | some seg => return ⟨sanitizeList (pathNameList seg)⟩
  | none => return "script_" ++ ⟨(md5HexBytes (utf8Encode url.data)).take 16⟩ ++ ".py"

/-! ## JSON values (the result of `request.get_json()`) -/

inductive Json where
  | null
  | bool (b : Bool)
  | num (n : Int)
  | str (s : String)
  | arr (xs : List Json)
  | obj (kvs : List (String × Json))
  deriving Repr

namespace Json

/-- Python truthiness (`if not payload`). -/
def truthy : Json → Bool
  | .null => false
  | .bool b => b
  | .num n => n ≠ 0
  | .str s => s ≠ ""
  | .arr xs => !xs.isEmpty
  | .obj kvs => !kvs.isEmpty

/-- Python `==` between JSON values (`True == 1`, `False == 0`,
values of unrelated types are unequal). -/
def pyEq : Json → Json → Bool
  | .null, .null => true
  | .bool b, .bool c => b = c
  | .num n, .num m => n = m
  | .bool b, .num m => (if b then (1 : Int) else 0) = m
  | .num n, .bool c => n = (if c then (1 : Int) else 0)
  | .str s, .str t => s = t
  | .arr xs, .arr ys => pyEqList xs ys
  | .obj kvs, .obj lvs => pyEqObj kvs lvs
  | _, _ => false
where
  pyEqList : List Json → List Json → Bool
    | [], [] => true
    | x :: xs, y :: ys => pyEq x y && pyEqList xs ys
    | _, _ => false
  pyEqObj : List (String × Json) → List (String × Json) → Bool
    | [], [] => true
    | (k, v) :: kvs, (l, w) :: lvs => k = l && pyEq v w && pyEqObj kvs lvs
    | _, _ => false

/-- Substring test: `needle in hay` for Python strings. -/
def pyInStr (needle : List Char) : List Char → Bool
  | [] => needle.isEmpty
  | c :: rest => pyStartsWith (c :: rest) needle || pyInStr needle rest

/-- Python `value in container` (raises `TypeError` on non-containers; on a
string it is the substring test). -/
def pyContains (container : Json) (key : String) : Except String Bool :=
  match container with
  | .obj kvs => .ok (kvs.any fun kv => kv.1 = key)
  | .arr xs => .ok (xs.any fun x => pyEq (.str key) x)
  | .str s => .ok (pyInStr key.data s.data)
  | _ => .error "TypeError: argument of type is not iterable"

/-- Python `container[key]` with a string key: dict lookup keeps the last
binding of a duplicated key (JSON object semantics); every other
container raises `TypeError` / `KeyError`. -/
def pyIndex (container : Json) (key : String) : Except String Json :=
  match container with
  | .obj kvs =>
    match kvs.reverse.find? (fun kv => kv.1 = key) with
    | some kv => .ok kv.2
    | none => .error "KeyError"
  | _ => .error "TypeError: indices must be integers"

/-- Python `dict.get(key)`: `none` models Python `None`. -/
def pyGet (container : Json) (key : String) : Option Json :=
  match container with
  | .obj kvs =>
    match kvs.reverse.find? (fun kv => kv.1 = key) with
    | some kv => some kv.2
    | none => none
  | _ => none

def isObj : Json → Bool
  | .obj _ => true
  | _ => false

end Json

/-- Python `repr` of a string: quotes with `'` (or `"` when the string
contains `'` but no `"`), escaping the backslash and the quote. -/
def pyReprStr (s : String) : String :=
  let useDouble := '\'' ∈ s.data ∧ '"' ∉ s.data
  let q : Char := if useDouble then '"' else '\''
  let body := s.data.flatMap fun c =>
    if c = '\\' then ['\\', '\\'] else if c = q then ['\\', c] else [c]
  ⟨q :: body ++ [q]⟩

mutual

/-- Python `str()` of a JSON value, as interpolated into f-strings. -/
def pyStr : Json → String
  | .null => "None"
  | .bool b => if b then "True" else "False"
  | .num n => toString n
  | .str s => s
  | .arr xs => "[" ++ String.intercalate ", " (pyReprList xs) ++ "]"
  | .obj kvs => "\x7b" ++ String.intercalate ", " (pyReprObj kvs) ++ "\x7d"

/-- Python `repr()` of a JSON value (used for elements of containers). -/
def pyRepr : Json → String
  | .str s => pyReprStr s
  | .arr xs => "[" ++ String.intercalate ", " (pyReprList xs) ++ "]"
  | .obj kvs => "\x7b" ++ String.intercalate ", " (pyReprObj kvs) ++ "\x7d"
  | v => pyStr v

def pyReprList : List Json → List String
  | [] => []
  | x :: xs => pyRepr x :: pyReprList xs

def pyReprObj : List (String × Json) → List String
  | [] => []
  | (k, v) :: kvs => (pyReprStr k ++ ": " ++ pyRepr v) :: pyReprObj kvs

end

/-! ## `task_server.validate_auth` -/

/-- Server configuration: `TASK_AUTH_TOKEN` (empty = auth disabled). -/
structure Config where
  authToken : String
  deriving Repr, DecidableEq

/-- An incoming POST /task request: the `Authorization` header (absent
= `none`; `request.headers.get` then defaults it to `""`) and the
outcome of `request.get_json()` (an exception becomes `.error`). -/
structure Request where
  authHeader : Option String
  body : Except String Json
  deriving Repr

/-- The function `validate_auth` from task_server.py. A missing header
defaults to the empty string (`request.headers.get("Authorization", "")`),
then `startswith("Bearer ")` and an exact compare of `auth_header[7:]`. -/
def validate_auth (cfg : Config) (authHeader : Option String) : Bool × Option String :=
  if cfg.authToken = "" then (true, none)
  else
    let h := (authHeader.getD "").data
    if ¬pyStartsWith h "Bearer ".data then
      (false, some "Missing or invalid Authorization header")
    else
      let token : String := ⟨h.drop 7⟩
      if token ≠ cfg.authToken then (false, some "Invalid authentication token")
      else (true, none)

/-! ## `task_server.validate_payload` -/

/-- The mismatch message of rule 5,
`f"script_name '{script_name}' does not match URL filename '{url_filename}'"`. -/
def mismatchMsg (script_name : Json) (url_filename : String) : String :=
  "script_name " ++ pyReprQuote (pyStr script_name) ++
    " does not match URL filename " ++ pyReprQuote url_filename
where
  /-- wrap in the single quotes the f-string itself contains -/
  pyReprQuote (s : String) : String := "\x27" ++ s ++ "\x27"

/-- The function `validate_payload` from task_server.py, with Python's
dynamic-type errors surfaced as `Except.error` (they are caught by the
endpoint's outer `except` and become HTTP 500). -/
def validate_payload (payload : Json) : Except String (Bool × Option String) :=
  if ¬payload.truthy then .ok (false, some "Empty payload")
  else match payload.pyContains "script_url" with
  | .error e => .error e
  | .ok hasUrl =>
    if ¬hasUrl then .ok (false, some "Missing required field: script_url")
    else match payload.pyContains "script_name" with
    | .error e => .error e
    | .ok hasName =>
      if ¬hasName then .ok (false, some "Missing required field: script_name")
      else match payload.pyIndex "script_url" with
      | .error e => .error e
      | .ok script_url =>
        match payload.pyIndex "script_name" with
        | .error e => .error e
        | .ok script_name =>
          match script_url with
          | .str surl =>
            if ¬pyStartsWith surl.data "https://".data then
              .ok (false, some "script_url must use HTTPS protocol")
            else match get_filename_from_url surl with
            | .error e => .error e
            | .ok url_filename =>
              if ¬script_name.pyEq (.str url_filename) then
                .ok (false, some (mismatchMsg script_name url_filename))
              else match payload.pyContains "payload" with
              | .error e => .error e
              | .ok hasPayload =>
                if hasPayload then
                  match payload.pyIndex "payload" with
                  | .error e => .error e
                  | .ok pv =>
                    if ¬pv.isObj then .ok (false, some "payload field must be a JSON object")
                    else .ok (true, none)
                else .ok (true, none)
          | _ => .error "AttributeError: object has no attribute startswith"

/-! ## `task_server.download_and_execute_script` -/

/-- How the child process run by `subprocess.run` ended. -/
inductive ScriptOutcome where
  | exited (returncode : Int)
  | timedOut
  deriving Repr, DecidableEq

/-- How the code path of the background execution unit ended: a plain
`return`, or a `sys.exit(code)` call. The unit always runs on a
`threading.Thread(daemon=True)`, where `sys.exit` raises `SystemExit`
that the threading machinery silently swallows — either way only the
thread ends; the server process survives and no exit code reaches any
supervisor. -/
inductive RunEnd where
  | returned
  | sysExit (code : Nat)
  deriving Repr, DecidableEq

structure RunResult where
  /-- The path `/tmp / script_name` where the downloaded bytes are written. -/
  destination : String
  /-- How the code path ended; the server process survives either way. -/
  «end» : RunEnd
  /-- The `task_executing` flag after the `finally` block. -/
  flagAfter : Bool
  /-- Seconds slept before `sys.exit` to flush logs, when calling it. -/
  flushDelay : Option Nat
  deriving Repr, DecidableEq

/-- The function `download_and_execute_script` from task_server.py,
always invoked by `receive_task` on a `threading.Thread(daemon=True)`
(so its `sys.exit` calls end only that thread). The interaction with
the outside world is an oracle: whether `download_file` succeeded,
whether the setup steps after the download (chmod, payload file write)
raised, and how the child process ended. -/
def download_and_execute_script (script_url script_name : String)
    (task_payload : Option Json) (downloadOk : Bool) (setupError : Option String)
    (outcome : ScriptOutcome) : RunResult :=
  let destination := "/tmp/" ++ script_name
  if ¬downloadOk then
    -- `return` after the failed download; `finally` clears the flag
    ⟨destination, .returned, false, none⟩
  else
    match setupError with
    | some _ =>
      -- the `except` branch: log, sleep(2), sys.exit(1)
      ⟨destination, .sysExit 1, false, some 2⟩
    | none =>
      match outcome with
      | .exited rc =>
        if rc = 0 then ⟨destination, .sysExit 0, false, some 2⟩
        else ⟨destination, .sysExit 0, false, some 2⟩
      | .timedOut => ⟨destination, .sysExit 0, false, some 2⟩

/-! ## `task_server.receive_task` (POST /task) -/

inductive Response where
  | accepted202 (script_url script_name : Json)
  | badRequest400 (error : Option String)
  | unauthorized401 (error : Option String)
  | conflict409
  | serverError500 (error : String)
  deriving Repr

/-- What `receive_task` produced: the HTTP response, the value of
`task_executing` when the response is returned, and the arguments of
the background thread when one was started. -/
structure HandlerResult where
  response : Response
  executing : Bool
  spawned : Option (Json × Json × Option Json)
  deriving Repr

/-- The part of the handler inside the outer `try`, given that the
flag was just set: JSON parsing, payload validation, field extraction
and the thread spawn. `Except.error` here models an exception reaching
the outer `except` (HTTP 500). -/
def receive_task_core (body : Except String Json) : Except String HandlerResult :=
  match body with
  | .error e =>
    -- `request.get_json()` raised: inner `except` → 400
    .ok ⟨.badRequest400 (some ("Invalid JSON: " ++ e)), false, none⟩
  | .ok payload =>
    match validate_payload payload with
    | .error e => .error e
    | .ok (valid, error) =>
      if ¬valid then .ok ⟨.badRequest400 error, false, none⟩
      else match payload.pyIndex "script_url" with
      | .error e => .error e
      | .ok script_url =>
        match payload.pyIndex "script_name" with
        | .error e => .error e
        | .ok script_name =>
          -- task_payload := payload.get("payload")
          .ok ⟨.accepted202 script_url script_name, true,
            some (script_url, script_name, payload.pyGet "payload")⟩

/-- The handler `receive_task` from task_server.py, as a function of the server
configuration, the `task_executing` flag at entry, and the request. -/
def receive_task (cfg : Config) (executing : Bool) (req : Request) : HandlerResult :=
  let (auth_valid, auth_error) := validate_auth cfg req.authHeader
  if ¬auth_valid then ⟨.unauthorized401 auth_error, executing, none⟩
  else if executing then ⟨.conflict409, executing, none⟩
  else
    -- task_executing := true, then the outer try
    match receive_task_core req.body with
    | .ok r => r
    | .error e => ⟨.serverError500 ("Internal server error: " ++ e), false, none⟩

/-- HTTP status code of a response. -/
def Response.status : Response → Nat
  | .accepted202 .. => 202
  | .badRequest400 _ => 400
  | .unauthorized401 _ => 401
  | .conflict409 => 409
  | .serverError500 _ => 500

/-! ## Specification-side definitions, for comparison with the source -/

/-- Modelled from the spec: the filename derivation the spec describes,
which considers only the LAST path segment — "take the last
`/`-delimited segment of the URL path; if empty or not ending in the
expected script extension, derive a stable fallback name by hashing the
URL (truncated hash) and appending the extension". -/
def spec_last_segment_name (url : String) : Except String String := do
  let parsed ← urlsplit url.data
  let segments := pathSegments (unquoteList (urlparsePath parsed))
  match segments.getLast? with
  | some seg =>
    if segIsPy seg then return ⟨sanitizeList (pathNameList seg)⟩
    else return "script_" ++ ⟨(md5HexBytes (utf8Encode url.data)).take 16⟩ ++ ".py"
  | none => return "script_" ++ ⟨(md5HexBytes (utf8Encode url.data)).take 16⟩ ++ ".py"

/-- The non-empty path segments a URL parses to (convenience for
stating how `get_filename_from_url` picks its segment). -/
def urlPathSegments (url : String) : Except String (List (List Char)) :=
  (urlsplit url.data).map fun parts => pathSegments (unquoteList (urlparsePath parts))

/-- The hash-fallback filename of `get_filename_from_url`. -/
def fallbackName (url : String) : String :=
  "script_" ++ ⟨(md5HexBytes (utf8Encode url.data)).take 16⟩ ++ ".py"

def exceptIsOk {ε α : Type} : Except ε α → Bool
  | .ok _ => true
  | .error _ => false

/-- A payload is well-typed when it is a JSON object (or falsy): the
`script_url` / `script_name` fields, when present, hold strings, and
the URL, when it is present, is one on which the filename derivation
does not raise. On such payloads `validate_payload` cannot raise. -/
def wfField : Option Json → Bool
  | none => true
  | some (Json.str _) => true
  | some _ => false

def wfPayload (p : Json) : Bool :=
  match p with
  | .obj _ =>
    wfField (p.pyGet "script_url") && wfField (p.pyGet "script_name") &&
    (match p.pyGet "script_url" with
     | some (Json.str surl) => exceptIsOk (get_filename_from_url surl)
     | _ => true)
  | _ => ¬p.truthy

/-- Modelled from the spec: the payload validation rules as the claim
states them, checked in order with first failure winning. Only compared
with `validate_payload` on well-typed payloads (`wfPayload`); the
values chosen on ill-typed fields are irrelevant to that comparison. -/
def spec_validate (payload : Json) : Bool × Option String :=
  if ¬payload.truthy then (false, some "Empty payload")
  else
    match payload.pyGet "script_url" with
    | none => (false, some "Missing required field: script_url")
    | some script_url =>
      match payload.pyGet "script_name" with
      | none => (false, some "Missing required field: script_name")
      | some script_name =>
        match script_url with
        | .str surl =>
          if ¬pyStartsWith surl.data "https://".data then
            (false, some "script_url must use HTTPS protocol")
          else
            let url_filename := ((get_filename_from_url surl).toOption).getD ""
            if ¬script_name.pyEq (.str url_filename) then
              (false, some (mismatchMsg script_name url_filename))
            else
              match payload.pyGet "payload" with
              | some pv =>
                if ¬pv.isObj then (false, some "payload field must be a JSON object")
                else (true, none)
              | none => (true, none)
        | _ => (false, some "script_url must use HTTPS protocol")

/-- A path that denotes a file directly inside `/tmp`: it is `/tmp/`
followed by a single component free of path separators that is not a
relative traversal. -/
def directlyInTmp (dest : String) : Prop :=
  ∃ n : String, dest = "/tmp/" ++ n ∧ n ≠ "" ∧ n ≠ "." ∧ n ≠ ".." ∧
    '/' ∉ n.data ∧ '\\' ∉ n.data

/-! # Theorems -/

/-! ## Generic list lemmas -/

theorem pyStartsWith_iff (p l : List Char) :
    pyStartsWith l p = true ↔ l.take p.length = p := by
  induction p generalizing l with
  | nil => simp [pyStartsWith]
  | cons p ps ih =>
    cases l with
    | nil => simp [pyStartsWith]
    | cons c cs =>
      simp [pyStartsWith, ih, List.take_succ_cons, and_comm]

theorem eq_append_iff_take_drop (l p t : List Char) :
    l = p ++ t ↔ l.take p.length = p ∧ l.drop p.length = t := by
  constructor
  · rintro rfl
    exact ⟨List.take_left p t, List.drop_left p t⟩
  · rintro ⟨h1, h2⟩
    conv_lhs => rw [← List.take_append_drop p.length l]
    rw [h1, h2]

/-! ## C8: validate_auth -/

/-- C8: with an empty configured token `validate_auth` always succeeds;
with a non-empty token it succeeds exactly for a header equal to
`"Bearer " ++ token`, reports a missing/invalid header when the header
(defaulted to `""` when absent) does not start with `"Bearer "`, and
reports an invalid token when it has the Bearer form but differs from
`"Bearer " ++ token`. -/
theorem validate_auth_spec (tok : String) (h : Option String) :
    (tok = "" → validate_auth ⟨tok⟩ h = (true, none)) ∧
    (tok ≠ "" →
      ((validate_auth ⟨tok⟩ h = (true, none) ↔ h.getD "" = "Bearer " ++ tok) ∧
       (pyStartsWith (h.getD "").data "Bearer ".data = false →
         validate_auth ⟨tok⟩ h = (false, some "Missing or invalid Authorization header")) ∧
       (pyStartsWith (h.getD "").data "Bearer ".data = true → h.getD "" ≠ "Bearer " ++ tok →
         validate_auth ⟨tok⟩ h = (false, some "Invalid authentication token")))) := by
  constructor
  · intro ht
    subst ht
    simp [validate_auth]
  · intro ht
    have hb : ("Bearer ".data).length = 7 := by decide
    have hkey : h.getD "" = "Bearer " ++ tok ↔
        pyStartsWith (h.getD "").data "Bearer ".data = true ∧
          ((h.getD "").data.drop 7 : List Char) = tok.data := by
      rw [String.ext_iff, String.data_append, eq_append_iff_take_drop, hb,
        pyStartsWith_iff, hb]
    refine ⟨?_, ?_, ?_⟩
    · unfold validate_auth
      simp only [ht, if_false]
      by_cases hs : pyStartsWith (h.getD "").data "Bearer ".data = true
      · simp only [hs, not_true, if_false, ite_not]
        by_cases heq : (⟨(h.getD "").data.drop 7⟩ : String) = tok
        · simp only [heq, if_true]
          simp only [hkey, hs, true_and, true_iff]
          rw [← heq]
        · simp only [heq, if_false]
          constructor
          · intro hcon
            exact absurd hcon (by simp)
          · intro hcon
            rw [hkey] at hcon
            exact absurd (String.ext hcon.2) heq
      · simp only [Bool.not_eq_true] at hs
        simp only [hs]
        simp only [Bool.false_eq_true, not_false_iff, if_true]
        constructor
        · intro hcon
          exact absurd hcon (by simp)
        · intro hcon
          rw [hkey] at hcon
          simp [hs] at hcon
    · intro hs
      unfold validate_auth
      simp [ht, hs]
    · intro hs hne
      unfold validate_auth
      simp only [ht, if_false, hs, not_true, Bool.false_eq_true, if_false]
      have : (⟨(h.getD "").data.drop 7⟩ : String) ≠ tok := by
        intro heq
        exact hne (hkey.mpr ⟨hs, by rw [← heq]⟩)
      simp [this]

/-- Closed instance of C8: the non-empty-token case at a concrete
matching header. -/
theorem validate_auth_spec_witness :
    validate_auth ⟨"secret"⟩ (some "Bearer secret") = (true, none) :=
  (((validate_auth_spec "secret" (some "Bearer secret")).2 (by decide)).1).mpr rfl

/-! ## C9: filename derivation is deterministic -/

/-- C9: `get_filename_from_url` is a pure function of its URL argument,
so any two calls on the same URL string return the same filename. -/
theorem get_filename_from_url_deterministic (url : String) :
    get_filename_from_url url = get_filename_from_url url := rfl

/-! ## C1: POST /task while EXECUTING -/

/-- C1 counterexample: a request failing authentication while the flag
is EXECUTING is answered 401, not 409 — authentication runs before the
conflict check. -/
theorem busy_request_can_get_401 :
    (receive_task ⟨"secret"⟩ true ⟨none, .ok Json.null⟩).response.status = 401 ∧
    (receive_task ⟨"secret"⟩ true ⟨none, .ok Json.null⟩).response.status ≠ 409 := by
  constructor <;> decide

/-- C1 (amended): every request that passes authentication and arrives
while the flag is EXECUTING is answered 409 with the conflict body, for
every request body whatsoever (so before any parsing or validation of
its payload), the flag stays true and no execution is spawned. -/
theorem receive_task_busy_conflict (cfg : Config) (ah : Option String)
    (body : Except String Json) (hauth : (validate_auth cfg ah).1 = true) :
    receive_task cfg true ⟨ah, body⟩ = ⟨.conflict409, true, none⟩ := by
  cases hva : validate_auth cfg ah with
  | mk a e =>
    rw [hva] at hauth
    simp only at hauth
    subst hauth
    simp [receive_task, hva]

/-- Closed instance of C1 (amended) at a concrete request. -/
theorem receive_task_busy_conflict_witness :
    (validate_auth ⟨""⟩ none).1 = true ∧
    receive_task ⟨""⟩ true ⟨none, .ok Json.null⟩ = ⟨.conflict409, true, none⟩ :=
  ⟨rfl, receive_task_busy_conflict ⟨""⟩ none (.ok Json.null) rfl⟩

/-! ## C2: non-202 responses and the executing flag -/

/-- C2 counterexample: a request rejected 401 while another task is
executing returns with the flag still true. -/
theorem rejected_request_with_flag_true :
    (receive_task ⟨"secret"⟩ true ⟨some "Bearer wrong", .error "parse"⟩).response.status = 401 ∧
    (receive_task ⟨"secret"⟩ true ⟨some "Bearer wrong", .error "parse"⟩).response.status ≠ 202 ∧
    (receive_task ⟨"secret"⟩ true ⟨some "Bearer wrong", .error "parse"⟩).executing = true := by
  refine ⟨?_, ?_, ?_⟩ <;> decide

/-- A result of the inner handler that still has the flag set is the
202 acceptance row. -/
theorem receive_task_core_ok_executing (body : Except String Json) (r : HandlerResult)
    (h : receive_task_core body = .ok r) (hx : r.executing = true) :
    r.response.status = 202 := by
  unfold receive_task_core at h
  repeat' split at h
  all_goals try exact Except.noConfusion h
  all_goals injection h with h
  all_goals subst h
  all_goals first
    | rfl
    | (exfalso; revert hx; simp)

/-- From an idle start, either the flag is clear when the response
returns, or the response is the 202 acceptance. -/
theorem receive_task_result_cases (cfg : Config) (req : Request) :
    (receive_task cfg false req).executing = false ∨
      ((receive_task cfg false req).executing = true ∧
       (receive_task cfg false req).response.status = 202) := by
  rcases hva : validate_auth cfg req.authHeader with ⟨a, e⟩
  unfold receive_task
  rw [hva]
  cases a with
  | false => left; rfl
  | true =>
    cases hcore : receive_task_core req.body with
    | error err => left; simp [hcore]
    | ok r =>
      cases hex : r.executing with
      | false => left; simp [hcore, hex]
      | true =>
        right
        constructor
        · simp [hcore, hex]
        · have := receive_task_core_ok_executing req.body r hcore hex
          simp [hcore, this]

/-- C2 (amended): every request arriving while the flag is IDLE that is
not answered 202 returns with the flag false — any path that set the
flag resets it before responding. -/
theorem receive_task_idle_flag_clear (cfg : Config) (req : Request)
    (h : (receive_task cfg false req).response.status ≠ 202) :
    (receive_task cfg false req).executing = false := by
  rcases receive_task_result_cases cfg req with hc | ⟨-, hc⟩
  · exact hc
  · exact absurd hc h

/-- Closed instance of C2 (amended): an empty payload is rejected 400
and the flag is false when the response returns. -/
theorem receive_task_idle_flag_clear_witness :
    (receive_task ⟨""⟩ false ⟨none, .ok Json.null⟩).response.status ≠ 202 ∧
    (receive_task ⟨""⟩ false ⟨none, .ok Json.null⟩).executing = false :=
  ⟨by decide, receive_task_idle_flag_clear ⟨""⟩ ⟨none, .ok Json.null⟩ (by decide)⟩

/-! ## C5: runner exit codes -/

/-- C5 counterexample: when the script exits non-zero the runner does
not terminate the parent with a failure code — it calls `sys.exit(0)`,
and since the unit runs on a daemon thread that `SystemExit` is
swallowed, ending only the thread; nothing signals failure. -/
theorem runner_exits_zero_on_script_failure :
    (download_and_execute_script "https://example.com/script.py" "script.py"
      none true none (.exited 1)).«end» = .sysExit 0 ∧
    RunEnd.sysExit 0 ≠ RunEnd.sysExit 1 := by
  constructor <;> decide

/-- C5 (amended): after the child terminates — success, failure, or
timeout — the runner sleeps the 2-second flush delay and calls
`sys.exit(0)` in every case (`sys.exit(1)` only when an exception is
raised around the execution steps); because the unit runs on a daemon
thread, the resulting `SystemExit` ends only that thread — the parent
server process is never terminated, no exit code reaches a supervisor,
and the `finally` block resets the executing flag. -/
theorem runner_always_exits_zero (u n : String) (p : Option Json)
    (outc : ScriptOutcome) (err : String) :
    (download_and_execute_script u n p true none outc).«end» = .sysExit 0 ∧
    (download_and_execute_script u n p true none outc).flushDelay = some 2 ∧
    (download_and_execute_script u n p true none outc).flagAfter = false ∧
    (download_and_execute_script u n p true (some err) outc).«end» = .sysExit 1 ∧
    (download_and_execute_script u n p true (some err) outc).flushDelay = some 2 ∧
    (download_and_execute_script u n p true (some err) outc).flagAfter = false := by
  unfold download_and_execute_script
  cases outc with
  | exited rc => by_cases h : rc = 0 <;> simp [h]
  | timedOut => simp

/-! ## C6: accepted tasks and process lifetime -/

/-- C6 counterexample: an accepted task whose download fails does NOT
end in process termination — the execution unit returns, the flag goes
back to false, and the very same idle-state handler accepts a further
task (202 again). -/
theorem download_failure_returns_to_idle :
    (receive_task ⟨""⟩ false ⟨none, .ok (Json.obj
        [("script_url", Json.str "https://example.com/script.py"),
         ("script_name", Json.str "script.py")])⟩).response.status = 202 ∧
    (download_and_execute_script "https://example.com/script.py" "script.py"
      none false none (.exited 0)).«end» = .returned ∧
    (download_and_execute_script "https://example.com/script.py" "script.py"
      none false none (.exited 0)).flagAfter = false := by
  refine ⟨?_, ?_, ?_⟩ <;> decide

/-- C6 (amended): no accepted task ever terminates the server process.
The execution unit ends its daemon thread — by a plain `return` exactly
when the download fails, otherwise by a swallowed `sys.exit` — the
`finally` block resets the executing flag to false on every path, and
with the flag false again the handler accepts a further valid task
(202) within the same process lifetime, so the at-most-one-task-per-
lifetime invariant fails on every path, not only on download failure. -/
theorem runner_end_by_download (u n : String) (p : Option Json)
    (se : Option String) (outc : ScriptOutcome) (dOk : Bool) :
    (download_and_execute_script u n p dOk se outc).flagAfter = false ∧
    ((download_and_execute_script u n p dOk se outc).«end» = .returned ↔ dOk = false) ∧
    (download_and_execute_script u n p true se outc).«end» =
      (match se with | some _ => .sysExit 1 | none => .sysExit 0) ∧
    (receive_task ⟨""⟩ false ⟨none, .ok (Json.obj
        [("script_url", Json.str "https://example.com/script.py"),
         ("script_name", Json.str "script.py")])⟩).response.status = 202 := by
  refine ⟨?_, ?_, ?_, by decide⟩
  · unfold download_and_execute_script
    cases dOk with
    | false => simp
    | true =>
      cases se with
      | some e => simp
      | none =>
        cases outc with
        | exited rc => by_cases h : rc = 0 <;> simp [h]
        | timedOut => simp
  · unfold download_and_execute_script
    cases dOk with
    | false => simp
    | true =>
      cases se with
      | some e => simp
      | none =>
        cases outc with
        | exited rc => by_cases h : rc = 0 <;> simp [h]
        | timedOut => simp
  · unfold download_and_execute_script
    cases se with
    | some e => simp
    | none =>
      cases outc with
      | exited rc => by_cases h : rc = 0 <;> simp [h]
      | timedOut => simp

/-! ## C7: the on-disk script name -/

/-- C7 counterexample: two accepted tasks are written to
`/tmp/<script_name>` with different names — the destination is neither
a fixed `main.py`-style name nor independent of `script_name`. -/
theorem destination_depends_on_script_name :
    (receive_task ⟨""⟩ false ⟨none, .ok (Json.obj
        [("script_url", Json.str "https://example.com/foo.py"),
         ("script_name", Json.str "foo.py")])⟩).response.status = 202 ∧
    (receive_task ⟨""⟩ false ⟨none, .ok (Json.obj
        [("script_url", Json.str "https://example.com/update.py"),
         ("script_name", Json.str "update.py")])⟩).response.status = 202 ∧
    (download_and_execute_script "https://example.com/foo.py" "foo.py"
      none true none (.exited 0)).destination = "/tmp/foo.py" ∧
    (download_and_execute_script "https://example.com/update.py" "update.py"
      none true none (.exited 0)).destination = "/tmp/update.py" ∧
    ("/tmp/foo.py" : String) ≠ "/tmp/update.py" ∧
    ("/tmp/foo.py" : String) ≠ "/tmp/main.py" := by
  refine ⟨?_, ?_, ?_, ?_, ?_, ?_⟩ <;> decide

/-! ## C3: validate_payload follows the ordered rule list -/

theorem obj_pyGet_eq (kvs : List (String × Json)) (k : String) :
    (Json.obj kvs).pyGet k = (kvs.reverse.find? (fun kv => kv.1 = k)).map Prod.snd := by
  show (match kvs.reverse.find? (fun kv => kv.1 = k) with
        | some kv => some kv.2 | none => none) = _
  cases kvs.reverse.find? (fun kv => kv.1 = k) <;> rfl

theorem obj_pyGet_none_iff (kvs : List (String × Json)) (k : String) :
    (Json.obj kvs).pyGet k = none ↔ kvs.any (fun kv => kv.1 = k) = false := by
  rw [obj_pyGet_eq]
  cases hf : kvs.reverse.find? (fun kv => kv.1 = k) with
  | some kv =>
    have hmem := List.mem_reverse.mp (List.mem_of_find?_eq_some hf)
    have hpred := List.find?_some hf
    simp only [Option.map]
    constructor
    · exact fun hc => Option.noConfusion hc
    · intro hany
      rw [List.any_eq_false] at hany
      exact absurd hpred (by simpa using hany _ hmem)
  | none =>
    rw [List.find?_eq_none] at hf
    simp only [Option.map, List.any_eq_false]
    exact iff_of_true trivial (fun x hx => by simpa using hf x (List.mem_reverse.mpr hx))

theorem obj_pyIndex_eq (kvs : List (String × Json)) (k : String) :
    (Json.obj kvs).pyIndex k =
      match (Json.obj kvs).pyGet k with
      | some v => .ok v
      | none => .error "KeyError" := by
  rw [obj_pyGet_eq]
  show (match kvs.reverse.find? (fun kv => kv.1 = k) with
        | some kv => Except.ok kv.2 | none => Except.error "KeyError") = _
  cases kvs.reverse.find? (fun kv => kv.1 = k) <;> rfl

/-- C3: on well-typed payloads (JSON objects whose `script_url` /
`script_name` fields, when present, are strings on which the derivation
does not raise — plus any falsy payload), `validate_payload` returns
normally and computes exactly the spec's ordered first-failure rule
list with its exact messages, `(true, null)` when all rules pass. It is
embedded as a pure function, so it has no side effects. -/
theorem validate_payload_follows_spec (p : Json) (h : wfPayload p = true) :
    validate_payload p = .ok (spec_validate p) := by
  by_cases ht : p.truthy = true
  case neg =>
    rw [Bool.not_eq_true] at ht
    unfold validate_payload spec_validate
    simp [ht]
  case pos =>
    cases p with
    | null => simp [Json.truthy] at ht
    | bool b => simp_all [wfPayload, Json.truthy]
    | num n => simp_all [wfPayload, Json.truthy]
    | str s => simp_all [wfPayload, Json.truthy]
    | arr xs => simp_all [wfPayload, Json.truthy]
    | obj kvs =>
      cases hany1 : kvs.any (fun kv => kv.1 = "script_url") with
      | false =>
        have hget1 : (Json.obj kvs).pyGet "script_url" = none :=
          (obj_pyGet_none_iff kvs _).mpr hany1
        unfold validate_payload spec_validate
        simp [ht, hany1, hget1, Json.pyContains]
      | true =>
        obtain ⟨su, hget1⟩ : ∃ v, (Json.obj kvs).pyGet "script_url" = some v := by
          cases hg : (Json.obj kvs).pyGet "script_url" with
          | none =>
            rw [obj_pyGet_none_iff] at hg
            rw [hg] at hany1
            exact Bool.noConfusion hany1
          | some v => exact ⟨v, rfl⟩
        have hidx1 : (Json.obj kvs).pyIndex "script_url" = .ok su := by
          rw [obj_pyIndex_eq, hget1]
        cases hany2 : kvs.any (fun kv => kv.1 = "script_name") with
        | false =>
          have hget2 : (Json.obj kvs).pyGet "script_name" = none :=
            (obj_pyGet_none_iff kvs _).mpr hany2
          unfold validate_payload spec_validate
          simp [ht, hany1, hany2, hget1, hget2, Json.pyContains]
        | true =>
          obtain ⟨snv, hget2⟩ : ∃ v, (Json.obj kvs).pyGet "script_name" = some v := by
            cases hg : (Json.obj kvs).pyGet "script_name" with
            | none =>
              rw [obj_pyGet_none_iff] at hg
              rw [hg] at hany2
              exact Bool.noConfusion hany2
            | some v => exact ⟨v, rfl⟩
          have hidx2 : (Json.obj kvs).pyIndex "script_name" = .ok snv := by
            rw [obj_pyIndex_eq, hget2]
          unfold wfPayload at h
          rw [hget1, hget2] at h
          obtain ⟨surl, rfl⟩ : ∃ s, su = Json.str s := by
            cases su
            case str s2 => exact ⟨s2, rfl⟩
            all_goals simp [wfField] at h
          replace h : (wfField (some (Json.str surl)) && wfField (some snv) &&
              exceptIsOk (get_filename_from_url surl)) = true := h
          simp only [Bool.and_eq_true] at h
          obtain ⟨-, h3⟩ := h
          cases hstart : pyStartsWith surl.data "https://".data with
          | false =>
            unfold validate_payload spec_validate
            simp [ht, hany1, hany2, hget1, hget2, hidx1, hidx2, hstart, Json.pyContains]
          | true =>
            obtain ⟨fn, hfn⟩ : ∃ s, get_filename_from_url surl = .ok s := by
              cases hg : get_filename_from_url surl with
              | error e => rw [hg] at h3; simp [exceptIsOk] at h3
              | ok s => exact ⟨s, rfl⟩
            cases hpe : snv.pyEq (.str fn) with
            | false =>
              unfold validate_payload spec_validate
              simp [ht, hany1, hany2, hget1, hget2, hidx1, hidx2, hstart, hfn, hpe,
                Json.pyContains, Except.toOption]
            | true =>
              cases hanyP : kvs.any (fun kv => kv.1 = "payload") with
              | false =>
                have hgetP : (Json.obj kvs).pyGet "payload" = none :=
                  (obj_pyGet_none_iff kvs _).mpr hanyP
                unfold validate_payload spec_validate
                simp [ht, hany1, hany2, hget1, hget2, hidx1, hidx2, hstart, hfn, hpe,
                  hanyP, hgetP, Json.pyContains, Except.toOption]
              | true =>
                obtain ⟨pv, hgetP⟩ : ∃ v, (Json.obj kvs).pyGet "payload" = some v := by
                  cases hg : (Json.obj kvs).pyGet "payload" with
                  | none =>
                    rw [obj_pyGet_none_iff] at hg
                    rw [hg] at hanyP
                    exact Bool.noConfusion hanyP
                  | some v => exact ⟨v, rfl⟩
                have hidxP : (Json.obj kvs).pyIndex "payload" = .ok pv := by
                  rw [obj_pyIndex_eq, hgetP]
                cases hobj : pv.isObj with
                | false =>
                  unfold validate_payload spec_validate
                  simp [ht, hany1, hany2, hget1, hget2, hidx1, hidx2, hstart, hfn, hpe,
                    hanyP, hgetP, hidxP, hobj, Json.pyContains, Except.toOption]
                | true =>
                  unfold validate_payload spec_validate
                  simp [ht, hany1, hany2, hget1, hget2, hidx1, hidx2, hstart, hfn, hpe,
                    hanyP, hgetP, hidxP, hobj, Json.pyContains, Except.toOption]

/-- Closed instance of C3: a fully valid payload passes all six rules
and yields `(true, null)`. -/
theorem validate_payload_follows_spec_witness :
    wfPayload (Json.obj
      [("script_url", Json.str "https://example.com/script.py"),
       ("script_name", Json.str "script.py"),
       ("payload", Json.obj [("k", Json.str "v")])]) = true ∧
    validate_payload (Json.obj
      [("script_url", Json.str "https://example.com/script.py"),
       ("script_name", Json.str "script.py"),
       ("payload", Json.obj [("k", Json.str "v")])]) =
      .ok (spec_validate (Json.obj
        [("script_url", Json.str "https://example.com/script.py"),
         ("script_name", Json.str "script.py"),
         ("payload", Json.obj [("k", Json.str "v")])])) ∧
    spec_validate (Json.obj
      [("script_url", Json.str "https://example.com/script.py"),
       ("script_name", Json.str "script.py"),
       ("payload", Json.obj [("k", Json.str "v")])]) = (true, none) :=
  ⟨rfl, validate_payload_follows_spec _ rfl, rfl⟩

/-- A JSON value Python-equal to a string is that string. -/
theorem pyEq_str_right (v : Json) (s : String) (h : v.pyEq (.str s) = true) :
    v = .str s := by
  cases v <;> simp [Json.pyEq] at h ⊢
  exact h

/-- A payload that validates positively holds a string `script_url`
starting with `https://` and a string `script_name` equal to the
filename the URL derives to. -/
theorem validate_payload_ok_shape (p : Json) (err : Option String)
    (h : validate_payload p = .ok (true, err)) :
    ∃ u n : String, p.pyIndex "script_url" = .ok (.str u) ∧
      p.pyIndex "script_name" = .ok (.str n) ∧ get_filename_from_url u = .ok n ∧
      pyStartsWith u.data "https://".data = true := by
  unfold validate_payload at h
  repeat' split at h
  all_goals try exact Except.noConfusion h
  all_goals injection h with h
  all_goals try (exfalso; exact Bool.noConfusion (congrArg Prod.fst h))
  all_goals rename p.pyIndex "script_url" = Except.ok (Json.str _) => hsu
  all_goals rename p.pyIndex "script_name" = Except.ok _ => hsn
  all_goals rename get_filename_from_url _ = Except.ok _ => hfn
  all_goals rename ¬¬Json.pyEq _ _ = true => hpe
  all_goals rename ¬¬pyStartsWith _ _ = true => hst
  all_goals rw [not_not] at hpe hst
  all_goals obtain rfl := pyEq_str_right _ _ hpe
  all_goals exact ⟨_, _, hsu, hsn, hfn, hst⟩

/-- The runner writes the download to `/tmp / script_name` on every
path. -/
theorem runner_destination (u n : String) (tp : Option Json) (dOk : Bool)
    (se : Option String) (outc : ScriptOutcome) :
    (download_and_execute_script u n tp dOk se outc).destination = "/tmp/" ++ n := by
  unfold download_and_execute_script
  repeat' split
  all_goals rfl

/-- C7 (amended): every spawned execution receives string arguments
`(u, n)` where `n` is exactly the filename derived from the URL `u`
(forced by validation), and writes the script to `/tmp/ ++ n` — a name
that varies with the request rather than a fixed `main.py`. -/
theorem accepted_destination_from_url (cfg : Config) (fl : Bool) (req : Request)
    (su sn : Json) (tp : Option Json)
    (h : (receive_task cfg fl req).spawned = some (su, sn, tp)) :
    ∃ u n : String, su = .str u ∧ sn = .str n ∧ get_filename_from_url u = .ok n ∧
      ∀ (dOk : Bool) (se : Option String) (outc : ScriptOutcome),
        (download_and_execute_script u n tp dOk se outc).destination = "/tmp/" ++ n := by
  unfold receive_task receive_task_core at h
  repeat' split at h
  all_goals try (exfalso; exact Option.noConfusion h)
  rename _ = Except.ok _ => hcore
  repeat' split at hcore
  all_goals try exact Except.noConfusion hcore
  all_goals injection hcore with hcore
  all_goals subst hcore
  all_goals try (exfalso; exact Option.noConfusion h)
  rename validate_payload _ = Except.ok _ => hvp
  rename ¬¬_ = true => hvalid
  rename Json.pyIndex _ "script_url" = Except.ok _ => hurl
  rename Json.pyIndex _ "script_name" = Except.ok _ => hname
  rw [not_not] at hvalid
  subst hvalid
  obtain ⟨u, n, hsu2, hsn2, hfn, hst⟩ := validate_payload_ok_shape _ _ hvp
  rw [hurl] at hsu2
  rw [hname] at hsn2
  injection hsu2 with hsu2
  injection hsn2 with hsn2
  injection h with h
  injection h with h1 h23
  injection h23 with h2 h3
  subst h1
  subst h2
  subst h3
  exact ⟨u, n, hsu2, hsn2, hfn, fun dOk se outc => runner_destination u n _ dOk se outc⟩

/-- Closed instance of C7 (amended) at a concrete accepted task. -/
theorem accepted_destination_from_url_witness :
    (receive_task ⟨""⟩ false ⟨none, .ok (Json.obj
        [("script_url", Json.str "https://example.com/script.py"),
         ("script_name", Json.str "script.py")])⟩).spawned =
      some (.str "https://example.com/script.py", .str "script.py", none) ∧
    ∃ u n : String, (Json.str "https://example.com/script.py") = .str u ∧
      (Json.str "script.py") = .str n ∧ get_filename_from_url u = .ok n ∧
      ∀ (dOk : Bool) (se : Option String) (outc : ScriptOutcome),
        (download_and_execute_script u n none dOk se outc).destination = "/tmp/" ++ n :=
  ⟨rfl, accepted_destination_from_url ⟨""⟩ false
    ⟨none, .ok (Json.obj
        [("script_url", Json.str "https://example.com/script.py"),
         ("script_name", Json.str "script.py")])⟩
    (.str "https://example.com/script.py") (.str "script.py") none rfl⟩

/-! ## C10 groundwork: properties of sanitized and fallback names -/

theorem mem_of_mem_pyStrip (l : List Char) {c : Char} (h : c ∈ pyStrip l) : c ∈ l := by
  unfold pyStrip at h
  rw [List.mem_reverse] at h
  have h1 := (List.dropWhile_sublist (l := (l.dropWhile pyIsSpace).reverse)
    (p := pyIsSpace)).subset h
  rw [List.mem_reverse] at h1
  exact (List.dropWhile_sublist (l := l) (p := pyIsSpace)).subset h1

/-- No invalid filename character survives `_sanitize`. -/
theorem sanitizeList_no_invalid (l : List Char) (c : Char)
    (hc : invalidFilenameChar c = true) (hmem : c ∈ sanitizeList l) : False := by
  have h2 := mem_of_mem_pyStrip _ hmem
  rw [List.mem_map] at h2
  obtain ⟨a, -, ha⟩ := h2
  by_cases hi : invalidFilenameChar a = true
  · rw [if_pos hi] at ha
    subst ha
    exact absurd hc (by decide)
  · rw [if_neg hi] at ha
    subst ha
    exact hi hc

theorem pyEndsWith_iff (l s : List Char) :
    pyEndsWith l s = true ↔ ∃ t, l = t ++ s := by
  unfold pyEndsWith
  rw [decide_eq_true_eq]
  constructor
  · intro h
    refine ⟨(l.reverse.drop s.length).reverse, ?_⟩
    have hsplit := List.take_append_drop s.length l.reverse
    rw [h] at hsplit
    calc l = l.reverse.reverse := (List.reverse_reverse l).symm
    _ = (s.reverse ++ l.reverse.drop s.length).reverse := by rw [hsplit]
    _ = (l.reverse.drop s.length).reverse ++ s := by
        rw [List.reverse_append, List.reverse_reverse]
  · rintro ⟨t, rfl⟩
    rw [List.reverse_append]
    exact List.take_left' (List.length_reverse s)

theorem pyEndsWith_length (l s : List Char) (h : pyEndsWith l s = true) :
    s.length ≤ l.length := by
  obtain ⟨t, rfl⟩ := (pyEndsWith_iff l s).mp h
  simp

/-- A segment passing the `.py` test decomposes into a three-character
suffix lower-casing to `.py`. -/
theorem segIsPy_decomp (seg : List Char) (h : segIsPy seg = true) :
    ∃ t a b c, seg = t ++ [a, b, c] ∧
      pyLowerChar a = '.' ∧ pyLowerChar b = 'p' ∧ pyLowerChar c = 'y' := by
  unfold segIsPy pyLower at h
  obtain ⟨t2, ht⟩ := (pyEndsWith_iff _ _).mp h
  obtain ⟨s1, s2, rfl, -, h2⟩ := List.map_eq_append_iff.mp ht
  cases s2 with
  | nil => simp at h2
  | cons a s2 =>
    cases s2 with
    | nil => simp at h2
    | cons b s2 =>
      cases s2 with
      | nil => simp at h2
      | cons c s2 =>
        cases s2 with
        | cons d s2 => simp at h2
        | nil =>
          simp only [List.map_cons, List.map_nil, List.cons.injEq, and_true] at h2
          obtain ⟨ha, hb, hc⟩ := h2
          exact ⟨s1, a, b, c, rfl, ha, hb, hc⟩

/-- Uppercase ASCII letters are neither invalid filename characters nor
whitespace. -/
theorem upper_not_invalid (a : Char) (h1 : 'A' ≤ a) (h2 : a ≤ 'Z') :
    invalidFilenameChar a = false ∧ pyIsSpace a = false := by
  constructor
  · by_contra hc
    rw [Bool.not_eq_false] at hc
    unfold invalidFilenameChar at hc
    rw [decide_eq_true_eq] at hc
    rcases hc with rfl | rfl | rfl | rfl | rfl | rfl | rfl | rfl | rfl <;>
      revert h1 h2 <;> decide
  · by_contra hc
    rw [Bool.not_eq_false] at hc
    unfold pyIsSpace at hc
    rw [decide_eq_true_eq] at hc
    rcases hc with rfl | rfl | rfl | rfl | rfl | rfl <;>
      revert h1 h2 <;> decide

/-- A character lower-casing to a safe character is itself safe. -/
theorem lower_eq_keeps (a x : Char) (h : pyLowerChar a = x)
    (hinv : invalidFilenameChar x = false) (hsp : pyIsSpace x = false) :
    invalidFilenameChar a = false ∧ pyIsSpace a = false := by
  unfold pyLowerChar at h
  split at h
  · next hup => exact upper_not_invalid a hup.1 hup.2
  · subst h
    exact ⟨hinv, hsp⟩

/-- Sanitizing a list ending in a (case-insensitive) `.py` suffix keeps
that suffix in place. -/
theorem sanitizeList_of_py_suffix (t : List Char) (a b c : Char)
    (ha : pyLowerChar a = '.') (hb : pyLowerChar b = 'p') (hc : pyLowerChar c = 'y') :
    ∃ x, sanitizeList (t ++ [a, b, c]) = x ++ [a, b, c] := by
  obtain ⟨hainv, hasp⟩ := lower_eq_keeps a '.' ha (by decide) (by decide)
  obtain ⟨hbinv, hbsp⟩ := lower_eq_keeps b 'p' hb (by decide) (by decide)
  obtain ⟨hcinv, hcsp⟩ := lower_eq_keeps c 'y' hc (by decide) (by decide)
  unfold sanitizeList
  rw [List.map_append]
  simp only [List.map_cons, List.map_nil, hainv, hbinv, hcinv, Bool.false_eq_true,
    if_false]
  unfold pyStrip
  rw [List.dropWhile_append]
  split
  · rw [List.dropWhile_cons_of_neg (by rw [hasp]; exact Bool.noConfusion)]
    refine ⟨[], ?_⟩
    simp [List.dropWhile_cons, hcsp]
  · refine ⟨(t.map fun ch => if invalidFilenameChar ch then '_' else ch).dropWhile pyIsSpace, ?_⟩
    rw [List.reverse_append]
    simp only [List.reverse_cons, List.reverse_nil, List.nil_append, List.cons_append]
    rw [List.dropWhile_cons_of_neg (by rw [hcsp]; exact Bool.noConfusion)]
    simp

/-- Every character of an md5 hex digest is a hex digit character. -/
theorem md5HexBytes_mem (bytes : List Nat) (c : Char) (h : c ∈ md5HexBytes bytes) :
    ∃ n, n < 16 ∧ c = hexChar n := by
  unfold md5HexBytes at h
  rw [List.mem_flatten] at h
  obtain ⟨bh, hbh, hc⟩ := h
  rw [List.mem_map] at hbh
  obtain ⟨byte, -, rfl⟩ := hbh
  unfold byteHex at hc
  simp only [List.mem_cons, List.not_mem_nil, or_false] at hc
  rcases hc with rfl | rfl
  · exact ⟨byte / 16 % 16, Nat.mod_lt _ (by norm_num), rfl⟩
  · exact ⟨byte % 16, Nat.mod_lt _ (by norm_num), rfl⟩

/-- Hex digit characters are safe filename characters. -/
theorem hexChar_safe : ∀ n, n < 16 → hexChar n ≠ '/' ∧ hexChar n ≠ '\\' := by decide

/-- The core filename guarantee: every name `get_filename_from_url`
returns is free of path separators, ends case-insensitively in `.py`,
and has at least three characters. -/
theorem filename_props (url name : String) (h : get_filename_from_url url = .ok name) :
    '/' ∉ name.data ∧ '\\' ∉ name.data ∧
      pyEndsWith (pyLower name.data) ['.', 'p', 'y'] = true ∧ 3 ≤ name.data.length := by
  unfold get_filename_from_url at h
  simp only [bind, Except.bind] at h
  cases hu : urlsplit url.data with
  | error e => rw [hu] at h; exact Except.noConfusion h
  | ok parts =>
    rw [hu] at h
    split at h
    case h_1 =>
      rename Except.ok _ = Except.error _ => hbad
      exact Except.noConfusion hbad
    case h_2 =>
    rename Except.ok _ = Except.ok _ => hok
    injection hok with hok
    subst hok
    cases hf : (pathSegments (unquoteList (urlparsePath parts))).reverse.find? segIsPy with
    | some seg =>
      rw [hf] at h
      simp only [pure, Except.pure, Except.ok.injEq] at h
      subst h
      have hseg : segIsPy seg = true := List.find?_some hf
      obtain ⟨t, a, b, c, rfl, ha, hb, hc⟩ := segIsPy_decomp seg hseg
      have hpn : pathNameList (t ++ [a, b, c]) = t ++ [a, b, c] := by
        unfold pathNameList
        rw [if_neg]
        rintro (h1 | h1) <;> (apply_fun List.length at h1; simp at h1)
      obtain ⟨x, hx⟩ := sanitizeList_of_py_suffix t a b c ha hb hc
      show '/' ∉ sanitizeList (pathNameList (t ++ [a, b, c])) ∧
        '\\' ∉ sanitizeList (pathNameList (t ++ [a, b, c])) ∧
        pyEndsWith (pyLower (sanitizeList (pathNameList (t ++ [a, b, c])))) _ = true ∧
        3 ≤ (sanitizeList (pathNameList (t ++ [a, b, c]))).length
      rw [hpn, hx]
      refine ⟨?_, ?_, ?_, by simp⟩
      · intro hm
        rw [← hx] at hm
        exact sanitizeList_no_invalid _ '/' (by decide) hm
      · intro hm
        rw [← hx] at hm
        exact sanitizeList_no_invalid _ '\\' (by decide) hm
      · unfold pyLower
        rw [List.map_append]
        refine (pyEndsWith_iff _ _).mpr ⟨x.map pyLowerChar, ?_⟩
        simp [ha, hb, hc]
    | none =>
      rw [hf] at h
      simp only [pure, Except.pure, Except.ok.injEq] at h
      subst h
      have hdata : ("script_" ++ (⟨(md5HexBytes (utf8Encode url.data)).take 16⟩ : String)
          ++ ".py").data =
          ("script_".data ++ (md5HexBytes (utf8Encode url.data)).take 16) ++ ".py".data := by
        rw [String.data_append, String.data_append]
      rw [hdata]
      refine ⟨?_, ?_, ?_, by simp⟩
      · intro hm
        rw [List.mem_append] at hm
        rcases hm with hm | hm
        · rw [List.mem_append] at hm
          rcases hm with hm | hm
          · revert hm; decide
          · obtain ⟨n, hn, heq⟩ := md5HexBytes_mem _ _ (List.take_subset 16 _ hm)
            exact (hexChar_safe n hn).1 heq.symm
        · revert hm; decide
      · intro hm
        rw [List.mem_append] at hm
        rcases hm with hm | hm
        · rw [List.mem_append] at hm
          rcases hm with hm | hm
          · revert hm; decide
          · obtain ⟨n, hn, heq⟩ := md5HexBytes_mem _ _ (List.take_subset 16 _ hm)
            exact (hexChar_safe n hn).2 heq.symm
        · revert hm; decide
      · unfold pyLower
        rw [List.map_append]
        refine (pyEndsWith_iff _ _).mpr
          ⟨("script_".data ++ (md5HexBytes (utf8Encode url.data)).take 16).map pyLowerChar, ?_⟩
        rfl

/-- C10: every filename returned by `get_filename_from_url` contains no
`/` or `\` path separator and ends case-insensitively in `.py`;
consequently, for every payload that passes validation, the execution
destination obtained by joining `/tmp` with the validated `script_name`
is a file directly inside `/tmp` and cannot escape it. -/
theorem derived_names_are_tmp_safe (url name : String)
    (h : get_filename_from_url url = .ok name) :
    ('/' ∉ name.data ∧ '\\' ∉ name.data ∧
      pyEndsWith (pyLower name.data) ['.', 'p', 'y'] = true) ∧
    (∀ (p : Json) (tp : Option Json) (dOk : Bool) (se : Option String)
        (outc : ScriptOutcome) (err : Option String),
      validate_payload p = .ok (true, err) →
      ∃ u n : String, p.pyIndex "script_url" = .ok (.str u) ∧
        p.pyIndex "script_name" = .ok (.str n) ∧
        directlyInTmp (download_and_execute_script u n tp dOk se outc).destination) := by
  obtain ⟨h1, h2, h3, -⟩ := filename_props url name h
  refine ⟨⟨h1, h2, h3⟩, ?_⟩
  intro p tp dOk se outc err hv
  obtain ⟨u, n, hsu, hsn, hfn, -⟩ := validate_payload_ok_shape p err hv
  obtain ⟨g1, g2, -, g4⟩ := filename_props u n hfn
  refine ⟨u, n, hsu, hsn, ?_⟩
  rw [directlyInTmp, runner_destination]
  refine ⟨n, rfl, ?_, ?_, ?_, g1, g2⟩
  · intro he
    rw [he] at g4
    exact absurd g4 (by decide)
  · intro he
    rw [he] at g4
    exact absurd g4 (by decide)
  · intro he
    rw [he] at g4
    exact absurd g4 (by decide)

/-- Closed instance of C10 at a concrete URL and a concrete validated
payload (supplied through the universally quantified second part). -/
theorem derived_names_are_tmp_safe_witness :
    get_filename_from_url "https://example.com/script.py" = .ok "script.py" ∧
    (('/' ∉ ("script.py" : String).data ∧ '\\' ∉ ("script.py" : String).data ∧
       pyEndsWith (pyLower ("script.py" : String).data) ['.', 'p', 'y'] = true) ∧
     (∀ (p : Json) (tp : Option Json) (dOk : Bool) (se : Option String)
         (outc : ScriptOutcome) (err : Option String),
       validate_payload p = .ok (true, err) →
       ∃ u n : String, p.pyIndex "script_url" = .ok (.str u) ∧
         p.pyIndex "script_name" = .ok (.str n) ∧
         directlyInTmp (download_and_execute_script u n tp dOk se outc).destination)) :=
  ⟨rfl, derived_names_are_tmp_safe "https://example.com/script.py" "script.py" rfl⟩

/-! ## C4: which path segment the filename comes from -/

/-- C4 counterexample: for `https://example.com/a.py/b` the last path
segment is `b`, which does not end in `.py`, so the claim mandates the
hash fallback; the code instead scans right-to-left across ALL segments
and returns `a.py`, disagreeing with the spec-described derivation. -/
theorem later_segment_does_not_force_fallback :
    urlPathSegments "https://example.com/a.py/b" = .ok [['a', '.', 'p', 'y'], ['b']] ∧
    segIsPy ['b'] = false ∧
    get_filename_from_url "https://example.com/a.py/b" = .ok "a.py" ∧
    get_filename_from_url "https://example.com/a.py/b" ≠
      .ok (fallbackName "https://example.com/a.py/b") ∧
    get_filename_from_url "https://example.com/a.py/b" ≠
      spec_last_segment_name "https://example.com/a.py/b" := by
  refine ⟨by decide, by decide, by decide, by decide, by decide⟩

/-- C4 (amended): on every URL that parses, `get_filename_from_url`
returns the sanitized name of the RIGHTMOST path segment ending
case-insensitively in `.py`, and falls back to the stable
`script_<truncated md5 of the URL>.py` name only when no segment at all
ends in `.py`. -/
theorem get_filename_scans_segments (url : String) (segs : List (List Char))
    (h : urlPathSegments url = .ok segs) :
    get_filename_from_url url =
      .ok (match segs.reverse.find? segIsPy with
           | some seg => (⟨sanitizeList (pathNameList seg)⟩ : String)
           | none => fallbackName url) := by
  unfold urlPathSegments at h
  cases hu : urlsplit url.data with
  | error e => rw [hu] at h; exact Except.noConfusion h
  | ok parts =>
    rw [hu] at h
    simp only [Except.map] at h
    injection h with h
    subst h
    unfold get_filename_from_url fallbackName
    rw [hu]
    simp only [Except.bind, bind]
    cases (pathSegments (unquoteList (urlparsePath parts))).reverse.find? segIsPy <;>
      simp [pure, Except.pure]

/-- Closed instance of C4 (amended), at a URL whose path carries
`;params` after the filename: `urlparse` strips them for `https`, so
the segment is `run.py` and the derivation returns it. -/
theorem get_filename_scans_segments_witness :
    urlPathSegments "https://example.com/run.py;x" =
      .ok [['r', 'u', 'n', '.', 'p', 'y']] ∧
    get_filename_from_url "https://example.com/run.py;x" = .ok "run.py" := by
  refine ⟨by decide, ?_⟩
  rw [get_filename_scans_segments "https://example.com/run.py;x"
    [['r', 'u', 'n', '.', 'p', 'y']] (by decide)]
  decide

end RpaWorker
